import Mathlib

/-!
# Verification of the `thumbscache` decoder (`src/lib.rs`)

Shallow embedding of `Thumbscache::read` and its helpers.  A byte buffer is a
`List Nat` (each element is one `u8`; the translated readers reduce values
`% 256`, so any list denotes the same buffer as its byte-wise reduction).
Machine arithmetic that can overflow in the source (`u32` addition and
subtraction in release builds wraps) is made explicit with `% 2^32`.

Modelling decisions, each tied to the source:
* `Cursor::read_exact` (std): on success it copies `n` bytes starting at
  `min pos len` and advances the position by `n`; on failure (fewer than `n`
  bytes remain) it copies nothing and moves the position to the end of the
  underlying buffer.  Both the success and failure behaviour follow the
  specialized `impl Read for Cursor<T>` in the Rust standard library, whose
  error arm sets `self.pos` to the buffer length and whose delegate
  `<&[u8] as Read>::read_exact` returns before writing anything to `buf`.
* `std::str::from_utf8` succeeds exactly when the bytes are valid UTF-8
  (`validUtf8` below is the standard UTF-8 well-formedness predicate), and
  two `&str` are equal exactly when their byte sequences are equal, so the
  `check_string != "CMMM"` comparison is modelled as comparison of the four
  raw bytes with `[67, 77, 77, 77]`.
* `String::from_utf16_lossy` is abstracted: decoded strings are kept as their
  `Vec<u16>` code-unit sequences (exactly the `chunks_exact(2)` /
  `u16::from_ne_bytes` list built by the source).  No claim inspects the
  lossy text, and the code-unit list determines it.
* Integers are read with `from_ne_bytes`; all supported targets are
  little-endian (the file format is little-endian), so `leNat` decodes
  little-endian.
* A Rust panic (the Vista-branch out-of-range slice index
  `&buf[pos..pos+identifier_len]`) is a distinguished outcome `oob`.
* The entry loop is written with explicit fuel; `Thumbscache.read` supplies
  `buf.length + 1`, which exceeds the possible number of iterations because
  every continuing iteration consumes at least the 56 header bytes.
-/

set_option maxRecDepth 100000

/-- Byte buffers (`Vec<u8>` / `&[u8]`). -/
abbrev Bytes := List Nat

/-- Little-endian decoding of a byte list (`uN::from_ne_bytes` on the
little-endian targets the format targets). -/
def leNat : Bytes → Nat
  | [] => 0
  | b :: bs => b % 256 + 256 * leNat bs

/-- `u32::from_ne_bytes(clone_into_array(&bs[off..off+4]))`. -/
def readU32 (bs : Bytes) (off : Nat) : Nat := leNat ((bs.drop off).take 4)

/-- `u64::from_ne_bytes(clone_into_array(&bs[off..off+8]))`. -/
def readU64 (bs : Bytes) (off : Nat) : Nat := leNat ((bs.drop off).take 8)

/-- Wrapping `u32` addition (release-profile semantics of `a + b`). -/
def u32add (a b : Nat) : Nat := (a + b) % 4294967296

/-- Wrapping `u32` subtraction (release-profile semantics of `a - b`).
In debug builds the same expression panics on underflow; the divergence is
noted where it matters (claim C2). -/
def u32sub (a b : Nat) : Nat :=
  (a % 4294967296 + 4294967296 - b % 4294967296) % 4294967296

/-- `bytes.chunks_exact(2).map(|a| u16::from_ne_bytes([a[0], a[1]]))`:
the UTF-16 code units of a byte list (a trailing odd byte is dropped). -/
def u16chunks : Bytes → List Nat
  | a :: b :: rest => (a % 256 + 256 * (b % 256)) :: u16chunks rest
  | _ => []

/-- One UTF-8 continuation byte (`0x80..=0xBF`). -/
def isCont (b : Nat) : Bool := 128 ≤ b && b ≤ 191

/-- UTF-8 well-formedness of a byte sequence, as checked by
`std::str::from_utf8`: the standard table of lead bytes with the surrogate
and overlong exclusions.  A truncated final sequence is invalid. -/
def validUtf8 : Bytes → Bool
  | [] => true
  | b :: rest =>
    if b ≤ 127 then validUtf8 rest
    else if 194 ≤ b && b ≤ 223 then
      match rest with
      | c :: rest2 => isCont c && validUtf8 rest2
      | [] => false
    else if b = 224 then
      match rest with
      | c :: d :: rest2 => (160 ≤ c && c ≤ 191) && isCont d && validUtf8 rest2
      | _ => false
    else if 225 ≤ b && b ≤ 236 then
      match rest with
      | c :: d :: rest2 => isCont c && isCont d && validUtf8 rest2
      | _ => false
    else if b = 237 then
      match rest with
      | c :: d :: rest2 => (128 ≤ c && c ≤ 159) && isCont d && validUtf8 rest2
      | _ => false
    else if 238 ≤ b && b ≤ 239 then
      match rest with
      | c :: d :: rest2 => isCont c && isCont d && validUtf8 rest2
      | _ => false
    else if b = 240 then
      match rest with
      | c :: d :: e :: rest2 =>
        (144 ≤ c && c ≤ 191) && isCont d && isCont e && validUtf8 rest2
      | _ => false
    else if 241 ≤ b && b ≤ 243 then
      match rest with
      | c :: d :: e :: rest2 => isCont c && isCont d && isCont e && validUtf8 rest2
      | _ => false
    else if b = 244 then
      match rest with
      | c :: d :: e :: rest2 =>
        (128 ≤ c && c ≤ 143) && isCont d && isCont e && validUtf8 rest2
      | _ => false
    else false

/-- The bytes of the magic string `"CMMM"`. -/
def cmmm : Bytes := [67, 77, 77, 77]

/-- `enum WindowsVersion` from the source. -/
inductive WindowsVersion where
  | WinVista
  | Win7
  | Win8
  | Win81
  | Win10
deriving Repr, DecidableEq

/-- `enum CacheType` from the source. -/
inductive CacheType where
  | Res16
  | Res32
  | Res48
  | Res96
  | Res256
  | Res768
  | Res1024
  | Res1280
  | Res1600
  | Res1920
  | Res2560
  | SR
  | Wide
  | EXIF
  | WideAlternate
  | CustomStream
deriving Repr, DecidableEq

/-- `struct CacheEntry` from the source.  `file_extension` and
`identifier_string` hold UTF-16 code-unit lists (see the header comment). -/
structure CacheEntry where
  size : Nat
  file_extension : Option (List Nat)
  identifier_string_size : Nat
  padding_size : Nat
  data_size : Nat
  data_checksum : Nat
  header_checksum : Nat
  identifier_string : List Nat
  data : Bytes
deriving Repr, DecidableEq

/-- The fixed-header fields one entry-loop branch extracts from the 56
`temp_bytes`.  The three branches of the source `match version` differ only
in these reads; the extraction is factored here, byte offsets copied from
each branch. -/
structure HeaderFields where
  size : Nat
  file_extension : Option (List Nat)
  identifier_string_size : Nat
  padding_size : Nat
  data_size : Nat
  data_checksum : Nat
  header_checksum : Nat
deriving Repr, DecidableEq

/-- Field extraction per version branch.
`WinVista` arm: lib.rs lines 273-280; `Win7` arm: lines 305-310; the
catch-all arm (`Win8`, `Win81`, `Win10`): lines 336-341, which read the two
checksums at offsets 40 and 48 (not 32 and 40 as the `Win7` arm does). -/
def entryHeaderFields (v : WindowsVersion) (temp : Bytes) : HeaderFields :=
  match v with
  | .WinVista =>
    { size := readU32 temp 4
      file_extension := some (u16chunks ((temp.drop 16).take 8))
      identifier_string_size := readU32 temp 24
      padding_size := readU32 temp 28
      data_size := readU32 temp 32
      data_checksum := readU64 temp 40
      header_checksum := readU64 temp 48 }
  | .Win7 =>
    { size := readU32 temp 4
      file_extension := none
      identifier_string_size := readU32 temp 16
      padding_size := readU32 temp 20
      data_size := readU32 temp 24
      data_checksum := readU64 temp 32
      header_checksum := readU64 temp 40 }
  | _ =>
    { size := readU32 temp 4
      file_extension := none
      identifier_string_size := readU32 temp 16
      padding_size := readU32 temp 20
      data_size := readU32 temp 24
      data_checksum := readU64 temp 40
      header_checksum := readU64 temp 48 }

/-- The `match format_version` table (lib.rs lines 179-255), version part.
A `match` on integer literals is written as an if-chain. -/
def versionOfRevision (rev : Nat) : Option WindowsVersion :=
  if rev = 20 then some .WinVista
  else if rev = 21 then some .Win7
  else if rev = 30 then some .Win8
  else if rev = 31 then some .Win81
  else if rev = 32 then some .Win10
  else none

/-- The nested `match cache_type` tables (lib.rs lines 182-252).  An
unrecognized code leaves the cache type unset. -/
def cacheTypeFor (v : WindowsVersion) (c : Nat) : Option CacheType :=
  match v with
  | .WinVista =>
    if c = 0 then some .Res32
    else if c = 1 then some .Res96
    else if c = 2 then some .Res256
    else if c = 3 then some .Res1024
    else if c = 4 then some .SR
    else none
  | .Win7 =>
    if c = 0 then some .Res32
    else if c = 1 then some .Res96
    else if c = 2 then some .Res256
    else if c = 3 then some .Res1024
    else if c = 4 then some .SR
    else none
  | .Win8 =>
    if c = 0 then some .Res16
    else if c = 1 then some .Res32
    else if c = 2 then some .Res48
    else if c = 3 then some .Res96
    else if c = 4 then some .Res256
    else if c = 5 then some .Res1024
    else if c = 6 then some .SR
    else if c = 7 then some .Wide
    else if c = 8 then some .EXIF
    else none
  | .Win81 =>
    if c = 0 then some .Res16
    else if c = 1 then some .Res32
    else if c = 2 then some .Res48
    else if c = 3 then some .Res96
    else if c = 4 then some .Res256
    else if c = 5 then some .Res1024
    else if c = 6 then some .Res1600
    else if c = 7 then some .SR
    else if c = 8 then some .Wide
    else if c = 9 then some .EXIF
    else if c = 10 then some .WideAlternate
    else none
  | .Win10 =>
    if c = 0 then some .Res16
    else if c = 1 then some .Res32
    else if c = 2 then some .Res48
    else if c = 3 then some .Res96
    else if c = 4 then some .Res256
    else if c = 5 then some .Res768
    else if c = 6 then some .Res1280
    else if c = 7 then some .Res1920
    else if c = 8 then some .Res2560
    else if c = 9 then some .SR
    else if c = 10 then some .Wide
    else if c = 11 then some .EXIF
    else if c = 12 then some .WideAlternate
    else none

/-- `Cursor::read_exact` into an `n`-byte buffer: returns the copied bytes
and the new position; on failure returns `none` and leaves the position at
the end of the buffer (see the header comment). -/
def readExact (buf : Bytes) (pos n : Nat) : Option Bytes × Nat :=
  if n ≤ buf.length - min pos buf.length then
    (some ((buf.drop (min pos buf.length)).take n), pos + n)
  else (none, buf.length)

/-- Result of one iteration of the entry loop (lib.rs lines 262-374):
`halt` = `break` out of the loop; `next` = fall to the next iteration with
the given cursor position, no entry appended; `push` = entry appended,
continue at the given position; `fail` = `return Err(IoError)`; `oob` =
panic from an out-of-range slice index. -/
inductive StepOut where
  | halt : StepOut
  | next : Nat → StepOut
  | push : CacheEntry → Nat → StepOut
  | fail : StepOut
  | oob : StepOut
deriving Repr, DecidableEq

/-- Final cursor position of a continuing step, if any. -/
def StepOut.finalPos : StepOut → Option Nat
  | .next p => some p
  | .push _ p => some p
  | _ => none

/-- Tail of the `Win7` and catch-all branches after the fixed-header reads
(lib.rs lines 311-333 and 342-364; the two are textually identical): read
`identifier_string_size` bytes with `read_exact`, its error discarded
(`let _ =`, so on a short read the vector keeps its zero fill and the cursor
moves to the end of the buffer), skip `padding_size`, read `data_size` bytes
(error propagated as `IoError`), then skip
`size - (56 + data_size + identifier_string_size + padding_size)` with
wrapping `u32` arithmetic and push the entry. -/
def modernTail (buf : Bytes) (pos1 : Nat) (f : HeaderFields) : StepOut :=
  let ri := readExact buf pos1 f.identifier_string_size
  let idBytes := ri.1.getD (List.replicate f.identifier_string_size 0)
  let identifier := u16chunks idBytes
  let pos2 := ri.2 + f.padding_size
  match readExact buf pos2 f.data_size with
  | (none, _) => .fail
  | (some data, pos3) =>
    let pos4 := pos3 +
      u32sub f.size (u32add (u32add (u32add 56 f.data_size) f.identifier_string_size)
        f.padding_size)
    .push
      { size := f.size
        file_extension := f.file_extension
        identifier_string_size := f.identifier_string_size
        padding_size := f.padding_size
        data_size := f.data_size
        data_checksum := f.data_checksum
        header_checksum := f.header_checksum
        identifier_string := identifier
        data := data } pos4

/-- Tail of the `WinVista` branch (lib.rs lines 281-302): the identifier
bytes are taken by direct slice indexing
`&stream.get_ref()[pos..pos+identifier_string_size]` — a panic (`oob`) when
the end index exceeds the buffer length — and the cursor is NOT advanced
past them; then the padding skip, the `data_size` read (error propagated)
and the wrapping trailing skip, as in the modern tail. -/
def vistaTail (buf : Bytes) (pos1 : Nat) (f : HeaderFields) : StepOut :=
  if buf.length < pos1 + f.identifier_string_size then .oob
  else
    let idBytes := (buf.drop pos1).take f.identifier_string_size
    let identifier := u16chunks idBytes
    let pos2 := pos1 + f.padding_size
    match readExact buf pos2 f.data_size with
    | (none, _) => .fail
    | (some data, pos3) =>
      let pos4 := pos3 +
        u32sub f.size (u32add (u32add (u32add 56 f.data_size) f.identifier_string_size)
          f.padding_size)
      .push
        { size := f.size
          file_extension := f.file_extension
          identifier_string_size := f.identifier_string_size
          padding_size := f.padding_size
          data_size := f.data_size
          data_checksum := f.data_checksum
          header_checksum := f.header_checksum
          identifier_string := identifier
          data := data } pos4

/-- One iteration of the entry loop body (lib.rs lines 263-373): read 56
header bytes (`let _ = read_exact`, so on failure `temp_bytes` keeps its
zero fill), check the magic as UTF-8 — a failed UTF-8 decode falls through
the `if let` with no `else` and the loop continues — then dispatch on the
resolved version (`None` does nothing and the loop continues). -/
def step (buf : Bytes) (ver : Option WindowsVersion) (pos : Nat) : StepOut :=
  let r := readExact buf pos 56
  let temp := r.1.getD (List.replicate 56 0)
  let pos1 := r.2
  if validUtf8 (temp.take 4) then
    if temp.take 4 = cmmm then
      match ver with
      | none => .next pos1
      | some .WinVista => vistaTail buf pos1 (entryHeaderFields .WinVista temp)
      | some .Win7 => modernTail buf pos1 (entryHeaderFields .Win7 temp)
      | some v => modernTail buf pos1 (entryHeaderFields v temp)
    else .halt
  else .next pos1

/-- Outcome of `Thumbscache::read`: `ok n` is `Ok(added_entries)`, the error
constructors mirror `ThumbsError`, `oob` is a panic, and `outOfFuel` is the
model's inexhaustible-fuel sentinel (unreachable from `Thumbscache.read`,
whose fuel bounds the iteration count). -/
inductive Outcome where
  | ok : Nat → Outcome
  | ioError : Outcome
  | unexpectedString : Bytes → Outcome
  | invalidCheckString : Outcome
  | oob : Outcome
  | outOfFuel : Outcome
deriving Repr, DecidableEq

/-- The `while self.stream.position() < len` entry loop (lib.rs lines
262-374), with the entries list and `added_entries` accumulated. -/
def readLoop (buf : Bytes) (ver : Option WindowsVersion) :
    Nat → Nat → List CacheEntry → Nat → Outcome × List CacheEntry
  | 0, _, entries, _ => (.outOfFuel, entries)
  | fuel + 1, pos, entries, count =>
    if pos < buf.length then
      match step buf ver pos with
      | .halt => (.ok count, entries)
      | .next pos2 => readLoop buf ver fuel pos2 entries count
      | .push e pos2 => readLoop buf ver fuel pos2 (entries ++ [e]) (count + 1)
      | .fail => (.ioError, entries)
      | .oob => (.oob, entries)
    else (.ok count, entries)

/-- Observable result of `Thumbscache::read`: the returned
`Result<u32, ThumbsError>` (or panic) together with the fields of `self`
the call mutates. -/
structure ReadResult where
  outcome : Outcome
  windows_version : Option WindowsVersion
  cache_type : Option CacheType
  cache_entires : List CacheEntry
deriving Repr, DecidableEq

/-- `Thumbscache::read` (lib.rs lines 166-376) on a freshly opened database
(`windows_version` and `cache_type` unset, `cache_entires` empty): read the
32 header bytes (`IoError` if the buffer is shorter), check the magic,
resolve version and cache type, seek to `24 + first_entry` (`u32` addition),
then run the entry loop. -/
def Thumbscache.read (buf : Bytes) : ReadResult :=
  match readExact buf 0 32 with
  | (none, _) => ⟨.ioError, none, none, []⟩
  | (some hdr, _) =>
    if validUtf8 (hdr.take 4) then
      if hdr.take 4 = cmmm then
        let rev := readU32 hdr 4
        let ctype := readU32 hdr 8
        let ver := versionOfRevision rev
        let ct := match ver with
          | some v => cacheTypeFor v ctype
          | none => none
        let first_entry := readU32 hdr 12
        let startPos := u32add 24 first_entry
        let res := readLoop buf ver (buf.length + 1) startPos [] 0
        ⟨res.1, ver, ct, res.2⟩
      else ⟨.unexpectedString (hdr.take 4), none, none, []⟩
    else ⟨.invalidCheckString, none, none, []⟩

/-! ## Synthetic input buffers

Little-endian encoders and the concrete buffers the claims are evaluated
on.  `le32enc` is the inverse of `readU32` for values below `2^32`. -/

/-- The four little-endian bytes of a `u32` value. -/
def le32enc (n : Nat) : Bytes :=
  [n % 256, n / 256 % 256, n / 65536 % 256, n / 16777216 % 256]

/-- A 32-byte file header: magic, `format_revision`, `type_code`,
`first_entry_offset`, and 16 further bytes the decoder ignores. -/
def mkFileHeader (rev ctype firstEntry : Nat) (rest16 : Bytes) : Bytes :=
  cmmm ++ le32enc rev ++ le32enc ctype ++ le32enc firstEntry ++ rest16

/-- Win7 file header with `first_entry_offset = 8`, so the entry list
begins at absolute offset 32, right after the header. -/
def win7Header : Bytes := mkFileHeader 21 0 8 (List.replicate 16 0)

/-- Vista file header with the entry list at offset 32. -/
def vistaHeader : Bytes := mkFileHeader 20 0 8 (List.replicate 16 0)

/-- C2 failing input: one modern entry declaring `size = 59` while its own
sub-field lengths need `56 + 0 + 0 + 4 = 60` bytes; the four data bytes are
present. -/
def c2buf : Bytes :=
  win7Header ++ (cmmm ++ le32enc 59 ++ List.replicate 8 0 ++ le32enc 0 ++ le32enc 0 ++
    le32enc 4 ++ List.replicate 28 0 ++ [1, 2, 3, 4])

/-- C4/C9 Vista record: declared size 60, `identifier_len = 2`
(`"a"` as UTF-16), `padding_len = 0`, `data_len = 2`. -/
def c4buf : Bytes :=
  vistaHeader ++ (cmmm ++ le32enc 60 ++ List.replicate 8 0 ++ List.replicate 8 0 ++
    le32enc 2 ++ le32enc 0 ++ le32enc 2 ++ List.replicate 4 0 ++ List.replicate 16 0 ++
    [97, 0] ++ [1, 2])

/-- The modern twin of `c4buf`: same declared lengths, Win7 header. -/
def c4bufModern : Bytes :=
  win7Header ++ (cmmm ++ le32enc 60 ++ List.replicate 8 0 ++ le32enc 2 ++ le32enc 0 ++
    le32enc 2 ++ List.replicate 28 0 ++ [97, 0] ++ [1, 2])

/-- C5 counterexample input: after the file header, a 56-byte block whose
first byte `0xFF` is not valid UTF-8, followed by one well-formed empty
modern entry (`size = 56`). -/
def c5buf : Bytes :=
  win7Header ++ (255 :: List.replicate 55 0) ++
    (cmmm ++ le32enc 56 ++ List.replicate 8 0 ++ le32enc 0 ++ le32enc 0 ++ le32enc 0 ++
      List.replicate 28 0)

/-- C6 counterexample input: a modern entry declaring `identifier_len = 2`
and `data_len = 0` whose record is cut off right after the 56-byte entry
header, so the identifier read is short. -/
def c6buf : Bytes :=
  win7Header ++ (cmmm ++ le32enc 58 ++ List.replicate 8 0 ++ le32enc 2 ++ le32enc 0 ++
    le32enc 0 ++ List.replicate 28 0)

/-- C9 failing input: a Vista record declaring `identifier_len = 100` with
the buffer ending right after the 56-byte entry header. -/
def c9buf : Bytes :=
  vistaHeader ++ (cmmm ++ le32enc 60 ++ List.replicate 8 0 ++ List.replicate 8 0 ++
    le32enc 100 ++ le32enc 0 ++ le32enc 0 ++ List.replicate 4 0 ++ List.replicate 16 0)

/-! ## Claim C1: well-formed back-to-back modern entries

A well-formed modern-layout record with zero trailing skip is its 56-byte
header (magic, size, 8 free bytes, the three lengths, 28 free tail bytes
covering offsets 28..56) followed by the identifier, padding and data
bytes, with the declared size equal to `56 + identifier + padding + data`. -/

/-- The variable parts of one well-formed modern record: the 8 header bytes
at 8..16, the identifier / padding / data sections, and the 28 header bytes
at 28..56 (which contain the checksums). -/
structure ModernRec where
  pre : Bytes
  idb : Bytes
  pb : Bytes
  db : Bytes
  tail : Bytes
deriving Repr, DecidableEq

/-- Declared size of a zero-trailing-skip record. -/
def ModernRec.recSize (r : ModernRec) : Nat :=
  56 + r.idb.length + r.pb.length + r.db.length

/-- Well-formedness: the fixed header parts have their fixed lengths and
the declared size fits in a `u32`. -/
def ModernRec.WF (r : ModernRec) : Prop :=
  r.pre.length = 8 ∧ r.tail.length = 28 ∧ r.recSize < 4294967296

instance (r : ModernRec) : Decidable r.WF := by
  unfold ModernRec.WF
  exact inferInstance

/-- The 56-byte entry header of a record. -/
def modernHdr (r : ModernRec) : Bytes :=
  cmmm ++ le32enc r.recSize ++ r.pre ++ le32enc r.idb.length ++
    le32enc r.pb.length ++ le32enc r.db.length ++ r.tail

/-- The full encoded record. -/
def encodeRec (r : ModernRec) : Bytes := modernHdr r ++ r.idb ++ r.pb ++ r.db

/-- The `CacheEntry` the decoder is expected to produce for a record: the
fields its branch reads from the header block, the identifier code units,
and the data bytes. -/
def expectedEntry (v : WindowsVersion) (r : ModernRec) : CacheEntry :=
  { size := (entryHeaderFields v (modernHdr r)).size
    file_extension := (entryHeaderFields v (modernHdr r)).file_extension
    identifier_string_size := (entryHeaderFields v (modernHdr r)).identifier_string_size
    padding_size := (entryHeaderFields v (modernHdr r)).padding_size
    data_size := (entryHeaderFields v (modernHdr r)).data_size
    data_checksum := (entryHeaderFields v (modernHdr r)).data_checksum
    header_checksum := (entryHeaderFields v (modernHdr r)).header_checksum
    identifier_string := u16chunks r.idb
    data := r.db }

def c7wbuf : Bytes := [88, 77, 77, 77] ++ le32enc 21 ++ le32enc 0 ++ le32enc 0 ++
  List.replicate 16 0

def c10wbuf : Bytes := mkFileHeader 22 0 0 (List.replicate 16 0)

def c5wbuf : Bytes := [88, 77, 77, 77] ++ List.replicate 52 0

def c6wbuf : Bytes :=
  win7Header ++ (cmmm ++ le32enc 62 ++ List.replicate 8 0 ++ le32enc 2 ++ le32enc 0 ++
    le32enc 4 ++ List.replicate 28 0 ++ [97, 0] ++ [1, 2])

def c1rec : ModernRec :=
  { pre := List.replicate 8 0, idb := [97, 0], pb := [], db := [1, 2, 3, 4],
    tail := List.replicate 28 0 }

/-! ## Claims settled by evaluating the code on a failing input -/

/-- C2 (code bug).  The claim says an entry whose declared `size` is smaller
than `56 + data_len + identifier_len + padding_len` ends the scan with the
malformed entry discarded and no wrapped unsigned subtraction.  On `c2buf`
(declared size 59, needed 60) the release-profile code instead wraps the
`u32` subtraction `59 - 60` to `4294967295`, keeps the malformed entry, and
returns `Ok(1)` (a debug build panics on the same subtraction). -/
theorem claim_C2 :
    (Thumbscache.read c2buf).outcome = .ok 1 ∧
    (Thumbscache.read c2buf).cache_entires.length = 1 ∧
    u32sub 59 (u32add (u32add (u32add 56 4) 0) 0) = 4294967295 := by
  refine ⟨by decide, by decide, by decide⟩

/-- C3 (code bug).  The claim says Win8/Win8.1/Win10 read every entry-header
field at the same offsets as Win7.  On the 56-byte block `0,1,...,55` the
catch-all branch used for Win8/Win8.1/Win10 reads `data_checksum` at bytes
40..48 and `header_checksum` at bytes 48..56, while the Win7 branch reads
them at 32..40 and 40..48, so the two decodings differ. -/
theorem claim_C3 :
    (entryHeaderFields .Win8 (List.range 56)).data_checksum = readU64 (List.range 56) 40 ∧
    (entryHeaderFields .Win7 (List.range 56)).data_checksum = readU64 (List.range 56) 32 ∧
    (entryHeaderFields .Win8 (List.range 56)).header_checksum = readU64 (List.range 56) 48 ∧
    (entryHeaderFields .Win7 (List.range 56)).header_checksum = readU64 (List.range 56) 40 ∧
    entryHeaderFields .Win81 (List.range 56) = entryHeaderFields .Win8 (List.range 56) ∧
    entryHeaderFields .Win10 (List.range 56) = entryHeaderFields .Win8 (List.range 56) ∧
    entryHeaderFields .Win8 (List.range 56) ≠ entryHeaderFields .Win7 (List.range 56) := by
  refine ⟨by decide, by decide, by decide, by decide, by decide, by decide, by decide⟩

/-- C4 (code bug).  The claim says a well-formed Vista record leaves the
cursor at record start plus declared size, as the modern layout does.  On
the record of `c4buf` (record start 32, size 60, identifier length 2) the
Vista branch leaves the cursor at 90 — it never advances past the
identifier bytes it slices directly out of the buffer — while the modern
twin `c4bufModern` leaves it at 92 = 32 + 60. -/
theorem claim_C4 :
    (step c4buf (some .WinVista) 32).finalPos = some 90 ∧
    (step c4bufModern (some .Win7) 32).finalPos = some 92 ∧
    (90 : Nat) ≠ 32 + 60 := by
  refine ⟨by decide, by decide, by decide⟩

/-- C5 counterexample.  The claim says an entry whose first 4 header bytes
fail to decode as UTF-8 stops the scan there, returning exactly the entries
decoded strictly before it (zero here).  On `c5buf` the garbage block at
offset 32 starts with `0xFF` (not valid UTF-8), yet the scan continues past
it and collects the following entry: the call returns `Ok(1)` with one
entry. -/
theorem claim_C5_cex :
    validUtf8 ((c5buf.drop 32).take 4) = false ∧
    (Thumbscache.read c5buf).outcome = .ok 1 ∧
    (Thumbscache.read c5buf).cache_entires.length = 1 := by
  refine ⟨by decide, by decide, by decide⟩

/-- C6 counterexample.  The claim says a record whose declared
`identifier_len` exceeds the remaining bytes makes `Thumbscache::read` fail
with `IoError`.  On `c6buf` (identifier needs 2 bytes at position 88 of an
88-byte buffer, `data_len = 0`) the short identifier read is discarded by
`let _ =`; the call returns `Ok(1)` with an entry whose identifier came
from the zero fill. -/
theorem claim_C6_cex :
    c6buf.length = 88 ∧
    (Thumbscache.read c6buf).outcome = .ok 1 ∧
    (Thumbscache.read c6buf).cache_entires =
      [{ size := 58, file_extension := none, identifier_string_size := 2,
         padding_size := 0, data_size := 0, data_checksum := 0, header_checksum := 0,
         identifier_string := [0], data := [] }] := by
  refine ⟨by decide, by decide, by decide⟩

/-- C9 (code bug).  The claim says no read panics: a Vista identifier whose
declared length exceeds the remaining buffer must yield a decode failure,
not an out-of-bounds access.  On `c9buf` (identifier length 100, buffer
ends at the entry header) the direct slice index
`&buf[88..188]` is out of range: the code panics. -/
theorem claim_C9 :
    Thumbscache.read c9buf =
      { outcome := .oob, windows_version := some .WinVista,
        cache_type := some .Res32, cache_entires := [] } := by
  decide

/-! ## General lemmas about the cursor and the loop step -/

theorem readExact_success (buf : Bytes) (pos n : Nat) (hpos : pos ≤ buf.length)
    (h : pos + n ≤ buf.length) :
    readExact buf pos n = (some ((buf.drop pos).take n), pos + n) := by
  unfold readExact
  rw [min_eq_left hpos, if_pos (by omega)]

theorem readExact_fail (buf : Bytes) (pos n : Nat)
    (h : buf.length - min pos buf.length < n) :
    readExact buf pos n = (none, buf.length) := by
  unfold readExact
  rw [if_neg (by omega)]

/-- When the 56 header bytes are available, one loop step is the magic check
followed by the version dispatch on the actual header block. -/
theorem step_eq_of_read (buf : Bytes) (ver : Option WindowsVersion) (pos : Nat)
    (hpos : pos + 56 ≤ buf.length) :
    step buf ver pos =
      (if validUtf8 (((buf.drop pos).take 56).take 4) then
        if ((buf.drop pos).take 56).take 4 = cmmm then
          match ver with
          | none => .next (pos + 56)
          | some .WinVista =>
            vistaTail buf (pos + 56) (entryHeaderFields .WinVista ((buf.drop pos).take 56))
          | some .Win7 =>
            modernTail buf (pos + 56) (entryHeaderFields .Win7 ((buf.drop pos).take 56))
          | some v =>
            modernTail buf (pos + 56) (entryHeaderFields v ((buf.drop pos).take 56))
        else .halt
      else .next (pos + 56)) := by
  unfold step
  rw [readExact_success buf pos 56 (by omega) hpos]
  rfl

/-- Fewer than 56 bytes left at the cursor: the header read fails,
`temp_bytes` keeps its zero fill, `"\\0\\0\\0\\0" ≠ "CMMM"`, the loop breaks. -/
theorem step_lt56 (buf : Bytes) (ver : Option WindowsVersion) (pos : Nat)
    (h : buf.length - pos < 56) :
    step buf ver pos = .halt := by
  unfold step
  rw [readExact_fail buf pos 56 (by omega)]
  rfl

/-- The first four bytes of the 56-byte header block are the first four
bytes at the cursor. -/
theorem take4_take56 (buf : Bytes) (pos : Nat) :
    ((buf.drop pos).take 56).take 4 = (buf.drop pos).take 4 := by
  rw [List.take_take]
  norm_num

/-- A readable header block whose magic is valid UTF-8 but not `CMMM`
breaks the loop. -/
theorem step_noMagic (buf : Bytes) (ver : Option WindowsVersion) (pos : Nat)
    (hpos : pos + 56 ≤ buf.length)
    (hu : validUtf8 ((buf.drop pos).take 4) = true)
    (hne : (buf.drop pos).take 4 ≠ cmmm) :
    step buf ver pos = .halt := by
  rw [step_eq_of_read buf ver pos hpos, take4_take56, if_pos hu, if_neg hne]

/-- A readable header block whose magic is not valid UTF-8 is skipped: the
loop continues 56 bytes further. -/
theorem step_badUtf8 (buf : Bytes) (ver : Option WindowsVersion) (pos : Nat)
    (hpos : pos + 56 ≤ buf.length)
    (hu : validUtf8 ((buf.drop pos).take 4) = false) :
    step buf ver pos = .next (pos + 56) := by
  rw [step_eq_of_read buf ver pos hpos, take4_take56, if_neg (by simp [hu])]

/-- With no resolved version, a readable `CMMM` block is skipped. -/
theorem step_magic_none (buf : Bytes) (pos : Nat)
    (hpos : pos + 56 ≤ buf.length)
    (hm : (buf.drop pos).take 4 = cmmm) :
    step buf none pos = .next (pos + 56) := by
  rw [step_eq_of_read buf none pos hpos, take4_take56, hm,
    if_pos (by decide : validUtf8 cmmm = true), if_pos rfl]

/-- With no resolved version the loop only breaks or skips 56 bytes. -/
theorem step_none_cases (buf : Bytes) (pos : Nat) :
    step buf none pos = .halt ∨
      (pos + 56 ≤ buf.length ∧ step buf none pos = .next (pos + 56)) := by
  by_cases h56 : buf.length - pos < 56
  · exact Or.inl (step_lt56 buf none pos h56)
  · have hpos : pos + 56 ≤ buf.length := by omega
    by_cases hu : validUtf8 ((buf.drop pos).take 4) = true
    · by_cases hm : (buf.drop pos).take 4 = cmmm
      · exact Or.inr ⟨hpos, step_magic_none buf pos hpos hm⟩
      · exact Or.inl (step_noMagic buf none pos hpos hu hm)
    · exact Or.inr ⟨hpos, step_badUtf8 buf none pos hpos (by simpa using hu)⟩

/-- Unfolding equation of the entry loop at positive fuel. -/
theorem readLoop_succ (buf : Bytes) (ver : Option WindowsVersion)
    (fuel pos count : Nat) (entries : List CacheEntry) :
    readLoop buf ver (fuel + 1) pos entries count =
      (if pos < buf.length then
        match step buf ver pos with
        | .halt => (.ok count, entries)
        | .next pos2 => readLoop buf ver fuel pos2 entries count
        | .push e pos2 => readLoop buf ver fuel pos2 (entries ++ [e]) (count + 1)
        | .fail => (.ioError, entries)
        | .oob => (.oob, entries)
      else (.ok count, entries)) := rfl

/-- With no resolved version and enough fuel, the loop returns normally
with the accumulator untouched. -/
theorem readLoop_none (buf : Bytes) : ∀ (fuel : Nat) (pos count : Nat)
    (entries : List CacheEntry), buf.length - pos < 56 * fuel →
    readLoop buf none fuel pos entries count = (.ok count, entries) := by
  intro fuel
  induction fuel with
  | zero => intro pos count entries h; omega
  | succ f ih =>
    intro pos count entries h
    rw [readLoop_succ]
    by_cases hp : pos < buf.length
    · rw [if_pos hp]
      rcases step_none_cases buf pos with hs | ⟨hb, hs⟩
      · rw [hs]
      · rw [hs]
        exact ih (pos + 56) count entries (by omega)
    · rw [if_neg hp]

/-! ## Claim C8: fewer than 56 bytes left ends the loop normally -/

/-- C8 (confirmed).  At any iteration of the entry loop where fewer than 56
bytes remain between the cursor and the end of the buffer, the loop stops
with `Ok(count)` and the entries collected so far: no entry is appended and
no error is raised.  (The failed 56-byte read leaves `temp_bytes` zeroed,
and `"\\0\\0\\0\\0"` is valid UTF-8 but not `CMMM`, so the loop breaks.) -/
theorem claim_C8 (buf : Bytes) (ver : Option WindowsVersion)
    (fuel pos count : Nat) (entries : List CacheEntry)
    (h : buf.length - pos < 56) :
    readLoop buf ver (fuel + 1) pos entries count = (.ok count, entries) := by
  rw [readLoop_succ]
  by_cases hp : pos < buf.length
  · rw [if_pos hp, step_lt56 buf ver pos h]
  · rw [if_neg hp]

theorem claim_C8_witness :
    (([0, 0, 0] : Bytes).length - 0 < 56) ∧
    readLoop [0, 0, 0] (some .Win7) 1 0 [] 0 = (.ok 0, []) :=
  ⟨by decide, claim_C8 [0, 0, 0] (some .Win7) 0 0 0 [] (by decide)⟩

/-! ## Claims C7 and C10: header resolution -/

theorem readHeader_bytes (buf : Bytes) (h32 : 32 ≤ buf.length) :
    readExact buf 0 32 = (some (buf.take 32), 32) := by
  have h := readExact_success buf 0 32 (by omega) (by omega)
  simpa using h

theorem take4_take32 (buf : Bytes) : (buf.take 32).take 4 = buf.take 4 := by
  rw [List.take_take]
  norm_num

/-- Reading a `u32` inside the 32 header bytes equals reading it in the
whole buffer. -/
theorem readU32_take32 (buf : Bytes) (off : Nat) (h : off + 4 ≤ 32) :
    readU32 (buf.take 32) off = readU32 buf off := by
  unfold readU32
  rw [List.drop_take, List.take_take, min_eq_left (by omega)]

/-- C7 (confirmed).  On any buffer of at least 32 bytes whose first 4 bytes
are not `CMMM`, `Thumbscache::read` fails before reading any entry: with
`UnexpectedString` carrying exactly those 4 bytes when they are valid
UTF-8, and with `InvalidCheckString` otherwise; `cache_entires` stays
empty in both cases. -/
theorem claim_C7 (buf : Bytes) (h32 : 32 ≤ buf.length)
    (hne : buf.take 4 ≠ cmmm) :
    Thumbscache.read buf =
      (if validUtf8 (buf.take 4) then
        { outcome := .unexpectedString (buf.take 4), windows_version := none,
          cache_type := none, cache_entires := [] }
      else
        { outcome := .invalidCheckString, windows_version := none,
          cache_type := none, cache_entires := [] } : ReadResult) := by
  unfold Thumbscache.read
  rw [readHeader_bytes buf h32]
  simp only [take4_take32]
  by_cases hu : validUtf8 (buf.take 4) = true
  · rw [if_pos hu, if_neg hne, if_pos hu]
  · rw [if_neg hu, if_neg hu]

theorem claim_C7_witness :
    (32 ≤ c7wbuf.length ∧ c7wbuf.take 4 ≠ cmmm) ∧
    Thumbscache.read c7wbuf =
      (if validUtf8 (c7wbuf.take 4) then
        { outcome := .unexpectedString (c7wbuf.take 4), windows_version := none,
          cache_type := none, cache_entires := [] }
      else
        { outcome := .invalidCheckString, windows_version := none,
          cache_type := none, cache_entires := [] } : ReadResult) :=
  ⟨⟨by decide, by decide⟩, claim_C7 c7wbuf (by decide) (by decide)⟩

/-- C10 (confirmed).  On any buffer with a valid `CMMM` magic whose
`format_revision` is none of 20, 21, 30, 31, 32, `Thumbscache::read`
returns `Ok(0)`: `windows_version` and `cache_type` stay unset and no entry
is collected (the loop skips every block until it breaks). -/
theorem claim_C10 (buf : Bytes) (h32 : 32 ≤ buf.length)
    (hm : buf.take 4 = cmmm)
    (h20 : readU32 buf 4 ≠ 20) (h21 : readU32 buf 4 ≠ 21)
    (h30 : readU32 buf 4 ≠ 30) (h31 : readU32 buf 4 ≠ 31)
    (h32' : readU32 buf 4 ≠ 32) :
    Thumbscache.read buf =
      { outcome := .ok 0, windows_version := none, cache_type := none,
        cache_entires := [] } := by
  have hver : versionOfRevision (readU32 buf 4) = none := by
    unfold versionOfRevision
    rw [if_neg h20, if_neg h21, if_neg h30, if_neg h31, if_neg h32']
  unfold Thumbscache.read
  rw [readHeader_bytes buf h32]
  simp only [take4_take32, hm, readU32_take32 buf 4 (by omega), hver]
  have hloop : readLoop buf none (buf.length + 1)
      (u32add 24 (readU32 (buf.take 32) 12)) [] 0 = (.ok 0, []) :=
    readLoop_none buf (buf.length + 1) _ 0 [] (by omega)
  simp [hloop, (by decide : validUtf8 cmmm = true)]

theorem claim_C10_witness :
    (32 ≤ c10wbuf.length ∧ c10wbuf.take 4 = cmmm ∧ readU32 c10wbuf 4 ≠ 20 ∧
      readU32 c10wbuf 4 ≠ 21 ∧ readU32 c10wbuf 4 ≠ 30 ∧ readU32 c10wbuf 4 ≠ 31 ∧
      readU32 c10wbuf 4 ≠ 32) ∧
    Thumbscache.read c10wbuf =
      { outcome := .ok 0, windows_version := none, cache_type := none,
        cache_entires := [] } :=
  ⟨⟨by decide, by decide, by decide, by decide, by decide, by decide, by decide⟩,
    claim_C10 c10wbuf (by decide) (by decide) (by decide) (by decide) (by decide)
      (by decide) (by decide)⟩

/-! ## Claim C5 (corrected): entry-magic handling -/

/-- C5 amended.  At a readable header block whose first 4 bytes differ from
`CMMM`: if they are valid UTF-8 the scan stops, returning normally with
exactly the entries collected so far; if they are NOT valid UTF-8 the block
is not an end marker — the 56 header bytes are skipped and the scan
continues (the source `if let` has no `else` branch). -/
theorem claim_C5 (buf : Bytes) (ver : Option WindowsVersion)
    (fuel pos count : Nat) (entries : List CacheEntry)
    (h56 : pos + 56 ≤ buf.length)
    (hne : (buf.drop pos).take 4 ≠ cmmm) :
    readLoop buf ver (fuel + 1) pos entries count =
      (if validUtf8 ((buf.drop pos).take 4) then ((.ok count : Outcome), entries)
       else readLoop buf ver fuel (pos + 56) entries count) := by
  rw [readLoop_succ, if_pos (show pos < buf.length by omega)]
  by_cases hu : validUtf8 ((buf.drop pos).take 4) = true
  · rw [step_noMagic buf ver pos h56 hu hne, if_pos hu]
  · rw [step_badUtf8 buf ver pos h56 (by simpa using hu), if_neg hu]

theorem claim_C5_witness :
    (0 + 56 ≤ c5wbuf.length ∧ (c5wbuf.drop 0).take 4 ≠ cmmm) ∧
    readLoop c5wbuf (some .Win7) 1 0 [] 0 =
      (if validUtf8 ((c5wbuf.drop 0).take 4) then ((.ok 0 : Outcome), ([] : List CacheEntry))
       else readLoop c5wbuf (some .Win7) 0 56 [] 0) :=
  ⟨⟨by decide, by decide⟩, claim_C5 c5wbuf (some .Win7) 0 0 0 [] (by decide) (by decide)⟩

/-! ## Claim C6 (corrected): short reads inside a record -/

/-- A modern-layout record whose data section overruns the buffer makes the
branch tail return `Err(IoError)` (the `?` on the data `read_exact`).  The
identifier read must succeed and `data_size` must be positive — a
`data_size` of zero succeeds trivially even past the end of the buffer. -/
theorem modernTail_fail (buf : Bytes) (pos1 : Nat) (f : HeaderFields)
    (hid : pos1 + f.identifier_string_size ≤ buf.length)
    (hd0 : 0 < f.data_size)
    (hdata : buf.length <
      pos1 + f.identifier_string_size + f.padding_size + f.data_size) :
    modernTail buf pos1 f = .fail := by
  have hA := readExact_success buf pos1 f.identifier_string_size (by omega) hid
  have hB := readExact_fail buf (pos1 + f.identifier_string_size + f.padding_size)
    f.data_size (by omega)
  unfold modernTail
  rw [hA]
  simp only [hB]

/-- C6 amended.  If, inside an otherwise readable modern-layout record, the
declared `data_len` (positive) needs more bytes than remain in the buffer,
the loop returns `Err(IoError)` and every entry collected before the
failure is kept.  (A short IDENTIFIER read alone does not raise an error:
its `read_exact` result is discarded with `let _ =` — see the
counterexample.) -/
theorem claim_C6 (buf : Bytes) (v : WindowsVersion) (fuel pos count : Nat)
    (entries : List CacheEntry)
    (hv : v = .Win7 ∨ v = .Win8 ∨ v = .Win81 ∨ v = .Win10)
    (h56 : pos + 56 ≤ buf.length)
    (hm : (buf.drop pos).take 4 = cmmm)
    (hid : pos + 56 +
      (entryHeaderFields v ((buf.drop pos).take 56)).identifier_string_size ≤
        buf.length)
    (hd0 : 0 < (entryHeaderFields v ((buf.drop pos).take 56)).data_size)
    (hdata : buf.length < pos + 56 +
      (entryHeaderFields v ((buf.drop pos).take 56)).identifier_string_size +
      (entryHeaderFields v ((buf.drop pos).take 56)).padding_size +
      (entryHeaderFields v ((buf.drop pos).take 56)).data_size) :
    readLoop buf (some v) (fuel + 1) pos entries count = (.ioError, entries) := by
  have hstep : step buf (some v) pos = .fail := by
    rw [step_eq_of_read buf (some v) pos h56, take4_take56, hm,
      if_pos (by decide : validUtf8 cmmm = true), if_pos rfl]
    rcases hv with rfl | rfl | rfl | rfl
    · exact modernTail_fail buf (pos + 56) _ (by omega) hd0 (by omega)
    · exact modernTail_fail buf (pos + 56) _ (by omega) hd0 (by omega)
    · exact modernTail_fail buf (pos + 56) _ (by omega) hd0 (by omega)
    · exact modernTail_fail buf (pos + 56) _ (by omega) hd0 (by omega)
  rw [readLoop_succ, if_pos (show pos < buf.length by omega), hstep]

theorem claim_C6_witness :
    ((.Win7 = WindowsVersion.Win7 ∨ .Win7 = WindowsVersion.Win8 ∨
        .Win7 = WindowsVersion.Win81 ∨ .Win7 = WindowsVersion.Win10) ∧
      32 + 56 ≤ c6wbuf.length ∧
      (c6wbuf.drop 32).take 4 = cmmm ∧
      32 + 56 + (entryHeaderFields .Win7 ((c6wbuf.drop 32).take 56)).identifier_string_size ≤
        c6wbuf.length ∧
      0 < (entryHeaderFields .Win7 ((c6wbuf.drop 32).take 56)).data_size ∧
      c6wbuf.length < 32 + 56 +
        (entryHeaderFields .Win7 ((c6wbuf.drop 32).take 56)).identifier_string_size +
        (entryHeaderFields .Win7 ((c6wbuf.drop 32).take 56)).padding_size +
        (entryHeaderFields .Win7 ((c6wbuf.drop 32).take 56)).data_size) ∧
    readLoop c6wbuf (some .Win7) 1 32 [] 0 = (.ioError, []) :=
  ⟨⟨by decide, by decide, by decide, by decide, by decide, by decide⟩,
    claim_C6 c6wbuf .Win7 0 32 0 [] (Or.inl rfl) (by decide) (by decide) (by decide)
      (by decide) (by decide)⟩

theorem le32enc_length (n : Nat) : (le32enc n).length = 4 := rfl

theorem leNat_le32enc (n : Nat) (h : n < 4294967296) : leNat (le32enc n) = n := by
  simp [le32enc, leNat]
  omega

theorem modernHdr_length (r : ModernRec) (h : r.WF) : (modernHdr r).length = 56 := by
  obtain ⟨hpre, htail, hsz⟩ := h
  simp [modernHdr, cmmm, le32enc, hpre, htail]

theorem encodeRec_length (r : ModernRec) (h : r.WF) :
    (encodeRec r).length = r.recSize := by
  have h56 := modernHdr_length r h
  simp [encodeRec, h56, ModernRec.recSize]
  omega

/-- The four length fields a modern branch reads from the header block of a
well-formed record are the real section lengths (and the declared size). -/
theorem fields_modernHdr (v : WindowsVersion) (r : ModernRec) (hwf : r.WF)
    (hv : v ≠ .WinVista) :
    (entryHeaderFields v (modernHdr r)).size = r.recSize ∧
    (entryHeaderFields v (modernHdr r)).identifier_string_size = r.idb.length ∧
    (entryHeaderFields v (modernHdr r)).padding_size = r.pb.length ∧
    (entryHeaderFields v (modernHdr r)).data_size = r.db.length := by
  obtain ⟨hpre, htail, hsz⟩ := hwf
  have hi : r.idb.length < 4294967296 := by
    have : r.idb.length ≤ r.recSize := by unfold ModernRec.recSize; omega
    omega
  have hp : r.pb.length < 4294967296 := by
    have : r.pb.length ≤ r.recSize := by unfold ModernRec.recSize; omega
    omega
  have hd : r.db.length < 4294967296 := by
    have : r.db.length ≤ r.recSize := by unfold ModernRec.recSize; omega
    omega
  have hs4 : ((modernHdr r).drop 4).take 4 = le32enc r.recSize := by
    have hsplit : modernHdr r = cmmm ++ (le32enc r.recSize ++ (r.pre ++
        (le32enc r.idb.length ++ (le32enc r.pb.length ++
          (le32enc r.db.length ++ r.tail))))) := by
      simp [modernHdr]
    rw [hsplit, List.drop_left' (by decide : (cmmm : Bytes).length = 4),
      List.take_left' (le32enc_length _)]
  have hs16 : ((modernHdr r).drop 16).take 4 = le32enc r.idb.length := by
    have hsplit : modernHdr r = (cmmm ++ le32enc r.recSize ++ r.pre) ++
        (le32enc r.idb.length ++ (le32enc r.pb.length ++
          (le32enc r.db.length ++ r.tail))) := by
      simp [modernHdr]
    rw [hsplit, List.drop_left' (by simp [cmmm, le32enc, hpre]),
      List.take_left' (le32enc_length _)]
  have hs20 : ((modernHdr r).drop 20).take 4 = le32enc r.pb.length := by
    have hsplit : modernHdr r = (cmmm ++ le32enc r.recSize ++ r.pre ++
        le32enc r.idb.length) ++
        (le32enc r.pb.length ++ (le32enc r.db.length ++ r.tail)) := by
      simp [modernHdr]
    rw [hsplit, List.drop_left' (by simp [cmmm, le32enc, hpre]),
      List.take_left' (le32enc_length _)]
  have hs24 : ((modernHdr r).drop 24).take 4 = le32enc r.db.length := by
    have hsplit : modernHdr r = (cmmm ++ le32enc r.recSize ++ r.pre ++
        le32enc r.idb.length ++ le32enc r.pb.length) ++
        (le32enc r.db.length ++ r.tail) := by
      simp [modernHdr]
    rw [hsplit, List.drop_left' (by simp [cmmm, le32enc, hpre]),
      List.take_left' (le32enc_length _)]
  cases v with
  | WinVista => exact absurd rfl hv
  | Win7 =>
    refine ⟨?_, ?_, ?_, ?_⟩ <;>
      simp [entryHeaderFields, readU32, hs4, hs16, hs20, hs24,
        leNat_le32enc _ hsz, leNat_le32enc _ hi, leNat_le32enc _ hp,
        leNat_le32enc _ hd]
  | Win8 =>
    refine ⟨?_, ?_, ?_, ?_⟩ <;>
      simp [entryHeaderFields, readU32, hs4, hs16, hs20, hs24,
        leNat_le32enc _ hsz, leNat_le32enc _ hi, leNat_le32enc _ hp,
        leNat_le32enc _ hd]
  | Win81 =>
    refine ⟨?_, ?_, ?_, ?_⟩ <;>
      simp [entryHeaderFields, readU32, hs4, hs16, hs20, hs24,
        leNat_le32enc _ hsz, leNat_le32enc _ hi, leNat_le32enc _ hp,
        leNat_le32enc _ hd]
  | Win10 =>
    refine ⟨?_, ?_, ?_, ?_⟩ <;>
      simp [entryHeaderFields, readU32, hs4, hs16, hs20, hs24,
        leNat_le32enc _ hsz, leNat_le32enc _ hi, leNat_le32enc _ hp,
        leNat_le32enc _ hd]

/-- Decoding tail of one well-formed modern record located at `pos`: the
identifier, padding, data and (zero) trailing skip advance the cursor by
exactly `recSize - 56`, and the expected entry is pushed. -/
theorem modernTail_encodeRec (buf : Bytes) (v : WindowsVersion) (pos : Nat)
    (r : ModernRec) (rest : Bytes) (hwf : r.WF) (hv : v ≠ .WinVista)
    (hEnc : buf.drop pos = modernHdr r ++ (r.idb ++ (r.pb ++ (r.db ++ rest))))
    (hpos : pos ≤ buf.length) :
    modernTail buf (pos + 56) (entryHeaderFields v (modernHdr r)) =
      .push (expectedEntry v r) (pos + r.recSize) := by
  obtain ⟨hfs, hfi, hfp, hfd⟩ := fields_modernHdr v r hwf hv
  have hlen : buf.length - pos =
      56 + r.idb.length + r.pb.length + r.db.length + rest.length := by
    have hl := congrArg List.length hEnc
    rw [List.length_drop] at hl
    simp [List.length_append, modernHdr_length r hwf] at hl
    omega
  have hdrop56 : buf.drop (pos + 56) = r.idb ++ (r.pb ++ (r.db ++ rest)) := by
    rw [← List.drop_drop, hEnc, List.drop_left' (modernHdr_length r hwf)]
  have hdropI : buf.drop (pos + 56 + r.idb.length) = r.pb ++ (r.db ++ rest) := by
    rw [← List.drop_drop, hdrop56, List.drop_left' rfl]
  have hdropD : buf.drop (pos + 56 + r.idb.length + r.pb.length) = r.db ++ rest := by
    rw [← List.drop_drop, hdropI, List.drop_left' rfl]
  have hidRead : readExact buf (pos + 56) r.idb.length =
      (some r.idb, pos + 56 + r.idb.length) := by
    rw [readExact_success buf (pos + 56) r.idb.length (by omega) (by omega),
      hdrop56, List.take_left' rfl]
  have hdataRead : readExact buf (pos + 56 + r.idb.length + r.pb.length)
      r.db.length =
      (some r.db, pos + 56 + r.idb.length + r.pb.length + r.db.length) := by
    rw [readExact_success buf _ r.db.length (by omega) (by omega), hdropD,
      List.take_left' rfl]
  have hskip : u32sub r.recSize
      (u32add (u32add (u32add 56 r.db.length) r.idb.length) r.pb.length) = 0 := by
    obtain ⟨-, -, hsz⟩ := hwf
    unfold ModernRec.recSize at hsz ⊢
    simp only [u32add, u32sub]
    omega
  unfold modernTail
  rw [hfi, hfp, hfd, hfs, hidRead]
  simp only [hdataRead, hskip]
  unfold expectedEntry
  have hpos4 : pos + 56 + r.idb.length + r.pb.length + r.db.length + 0 =
      pos + r.recSize := by
    unfold ModernRec.recSize
    omega
  rw [hpos4]
  simp [hfs, hfi, hfp, hfd]

/-- One loop iteration at a well-formed modern record pushes the expected
entry and advances the cursor by exactly the declared size. -/
theorem step_encodeRec (buf : Bytes) (v : WindowsVersion) (pos : Nat)
    (r : ModernRec) (rest : Bytes) (hwf : r.WF)
    (hv : v = .Win7 ∨ v = .Win8 ∨ v = .Win81 ∨ v = .Win10)
    (hdrop : buf.drop pos = encodeRec r ++ rest) (hpos : pos ≤ buf.length) :
    step buf (some v) pos = .push (expectedEntry v r) (pos + r.recSize) := by
  have hEnc : buf.drop pos = modernHdr r ++ (r.idb ++ (r.pb ++ (r.db ++ rest))) := by
    rw [hdrop]
    simp [encodeRec]
  have h56 : pos + 56 ≤ buf.length := by
    have hl := congrArg List.length hEnc
    rw [List.length_drop] at hl
    simp [List.length_append, modernHdr_length r hwf] at hl
    omega
  have htemp : (buf.drop pos).take 56 = modernHdr r := by
    rw [hEnc, List.take_left' (modernHdr_length r hwf)]
  have h4 : ((buf.drop pos).take 56).take 4 = cmmm := by
    rw [htemp]
    have hsplit : modernHdr r = cmmm ++ (le32enc r.recSize ++ (r.pre ++
        (le32enc r.idb.length ++ (le32enc r.pb.length ++
          (le32enc r.db.length ++ r.tail))))) := by
      simp [modernHdr]
    rw [hsplit, List.take_left' (by decide : (cmmm : Bytes).length = 4)]
  rw [step_eq_of_read buf (some v) pos h56, h4,
    if_pos (by decide : validUtf8 cmmm = true), if_pos rfl, htemp]
  rcases hv with rfl | rfl | rfl | rfl
  · exact modernTail_encodeRec buf _ pos r rest hwf (by decide) hEnc hpos
  · exact modernTail_encodeRec buf _ pos r rest hwf (by decide) hEnc hpos
  · exact modernTail_encodeRec buf _ pos r rest hwf (by decide) hEnc hpos
  · exact modernTail_encodeRec buf _ pos r rest hwf (by decide) hEnc hpos

/-- A list of records is never longer than its encoding. -/
theorem length_le_flatten (es : List ModernRec) (h : ∀ r ∈ es, r.WF) :
    es.length ≤ ((es.map encodeRec).flatten).length := by
  induction es with
  | nil => simp
  | cons r es ih =>
    have hr : (encodeRec r).length = r.recSize := encodeRec_length r (h r (by simp))
    have h56 : 56 ≤ r.recSize := by unfold ModernRec.recSize; omega
    have := ih (fun x hx => h x (by simp [hx]))
    simp only [List.map_cons, List.flatten_cons, List.length_append, List.length_cons]
    omega

/-- A pushing step unfolds the loop into its continuation. -/
theorem readLoop_push (buf : Bytes) (ver : Option WindowsVersion)
    (fuel pos count : Nat) (entries : List CacheEntry) (e : CacheEntry)
    (pos2 : Nat) (h : step buf ver pos = .push e pos2) (hp : pos < buf.length) :
    readLoop buf ver (fuel + 1) pos entries count =
      readLoop buf ver fuel pos2 (entries ++ [e]) (count + 1) := by
  rw [readLoop_succ, if_pos hp, h]

/-- Scanning a buffer whose remainder at `pos` is exactly the back-to-back
encoding of well-formed records appends, in order, the expected entry of
each record, and ends with `Ok` of the final count. -/
theorem readLoop_encodeList (buf : Bytes) (v : WindowsVersion)
    (hv : v = .Win7 ∨ v = .Win8 ∨ v = .Win81 ∨ v = .Win10) :
    ∀ (es : List ModernRec) (fuel pos count : Nat) (entries : List CacheEntry),
      (∀ r ∈ es, r.WF) →
      buf.drop pos = (es.map encodeRec).flatten →
      pos ≤ buf.length →
      es.length < fuel →
      readLoop buf (some v) fuel pos entries count =
        (.ok (count + es.length), entries ++ es.map (expectedEntry v)) := by
  intro es
  induction es with
  | nil =>
    intro fuel pos count entries hwf hdrop hpos hfuel
    cases fuel with
    | zero => exact absurd hfuel (by omega)
    | succ f =>
      have hstop : ¬ pos < buf.length := by
        have hl := congrArg List.length hdrop
        rw [List.length_drop] at hl
        simp at hl
        omega
      rw [readLoop_succ, if_neg hstop]
      simp
  | cons r es ih =>
    intro fuel pos count entries hwf hdrop hpos hfuel
    cases fuel with
    | zero => exact absurd hfuel (by omega)
    | succ f =>
      have hwfr : r.WF := hwf r (by simp)
      have hdrop' : buf.drop pos = encodeRec r ++ (es.map encodeRec).flatten := by
        rw [hdrop]
        simp
      have hlen : buf.length - pos =
          r.recSize + ((es.map encodeRec).flatten).length := by
        have hl := congrArg List.length hdrop'
        rw [List.length_drop, List.length_append, encodeRec_length r hwfr] at hl
        omega
      have h56 : 56 ≤ r.recSize := by unfold ModernRec.recSize; omega
      have hposlt : pos < buf.length := by omega
      have hple : pos + r.recSize ≤ buf.length := by omega
      have hflen : es.length < f := by
        simp only [List.length_cons] at hfuel
        omega
      have hdropnext : buf.drop (pos + r.recSize) = (es.map encodeRec).flatten := by
        rw [← List.drop_drop, hdrop', List.drop_left' (encodeRec_length r hwfr)]
      rw [readLoop_push buf (some v) f pos count entries (expectedEntry v r)
        (pos + r.recSize) (step_encodeRec buf v pos r _ hwfr hv hdrop' hpos) hposlt]
      rw [ih f (pos + r.recSize) (count + 1) (entries ++ [expectedEntry v r])
        (fun x hx => hwf x (by simp [hx])) hdropnext hple hflen]
      simp only [List.map_cons, List.length_cons]
      rw [show count + 1 + es.length = count + (es.length + 1) by omega,
        List.append_assoc, List.singleton_append]

/-- C1 (confirmed).  For a buffer made of a valid `CMMM` header (any modern
`format_revision`, any `type_code`, entry list starting right after the
32-byte header) followed by exactly the back-to-back encodings of `N`
well-formed modern records (declared sizes matching their own field
lengths, zero trailing skip), `Thumbscache::read` returns `Ok(N)` and
`cache_entires` holds exactly `N` entries, in file order, whose `data`
fields are byte-for-byte the data sections written in the buffer. -/
theorem claim_C1 (rev ctype : Nat) (rest16 : Bytes) (es : List ModernRec)
    (hrev : rev = 21 ∨ rev = 30 ∨ rev = 31 ∨ rev = 32)
    (h16 : rest16.length = 16)
    (hwf : ∀ r ∈ es, r.WF) :
    (Thumbscache.read
      (mkFileHeader rev ctype 8 rest16 ++ (es.map encodeRec).flatten)).outcome =
        .ok es.length ∧
    (Thumbscache.read
      (mkFileHeader rev ctype 8 rest16 ++
        (es.map encodeRec).flatten)).cache_entires.length = es.length ∧
    (Thumbscache.read
      (mkFileHeader rev ctype 8 rest16 ++
        (es.map encodeRec).flatten)).cache_entires.map CacheEntry.data =
      es.map ModernRec.db := by
  have hhlen : (mkFileHeader rev ctype 8 rest16).length = 32 := by
    simp [mkFileHeader, cmmm, le32enc, h16]
  set buf := mkFileHeader rev ctype 8 rest16 ++ (es.map encodeRec).flatten with hbuf
  have hblen : 32 ≤ buf.length := by
    rw [hbuf, List.length_append, hhlen]
    omega
  have htake32 : buf.take 32 = mkFileHeader rev ctype 8 rest16 := by
    rw [hbuf, List.take_left' hhlen]
  have hsplitHdr : mkFileHeader rev ctype 8 rest16 =
      cmmm ++ (le32enc rev ++ (le32enc ctype ++ (le32enc 8 ++ rest16))) := by
    simp [mkFileHeader]
  have h4 : (buf.take 32).take 4 = cmmm := by
    rw [htake32, hsplitHdr, List.take_left' (by decide : (cmmm : Bytes).length = 4)]
  have hrevlt : rev < 4294967296 := by
    rcases hrev with rfl | rfl | rfl | rfl <;> omega
  have hrev4 : readU32 (buf.take 32) 4 = rev := by
    rw [htake32]
    unfold readU32
    rw [hsplitHdr, List.drop_left' (by decide : (cmmm : Bytes).length = 4),
      List.take_left' (le32enc_length rev), leNat_le32enc rev hrevlt]
  have hfe : readU32 (buf.take 32) 12 = 8 := by
    rw [htake32]
    unfold readU32
    have hsplit : mkFileHeader rev ctype 8 rest16 =
        (cmmm ++ le32enc rev ++ le32enc ctype) ++ (le32enc 8 ++ rest16) := by
      simp [mkFileHeader]
    rw [hsplit, List.drop_left' (by simp [cmmm, le32enc]),
      List.take_left' (le32enc_length 8)]
    decide
  obtain ⟨v, hver, hvmod⟩ : ∃ v, versionOfRevision rev = some v ∧
      (v = .Win7 ∨ v = .Win8 ∨ v = .Win81 ∨ v = .Win10) := by
    rcases hrev with rfl | rfl | rfl | rfl
    · exact ⟨.Win7, by decide, Or.inl rfl⟩
    · exact ⟨.Win8, by decide, Or.inr (Or.inl rfl)⟩
    · exact ⟨.Win81, by decide, Or.inr (Or.inr (Or.inl rfl))⟩
    · exact ⟨.Win10, by decide, Or.inr (Or.inr (Or.inr rfl))⟩
  have hfuel : es.length < buf.length + 1 := by
    have h1 := length_le_flatten es hwf
    have h2 : buf.length = 32 + ((es.map encodeRec).flatten).length := by
      rw [hbuf, List.length_append, hhlen]
    omega
  have hdropstart : buf.drop 32 = (es.map encodeRec).flatten := by
    rw [hbuf, List.drop_left' hhlen]
  have hloop := readLoop_encodeList buf v hvmod es (buf.length + 1) 32 0 []
    hwf hdropstart (by omega) hfuel
  have hread : Thumbscache.read buf =
      { outcome := .ok es.length, windows_version := some v,
        cache_type := cacheTypeFor v (readU32 (buf.take 32) 8),
        cache_entires := es.map (expectedEntry v) } := by
    unfold Thumbscache.read
    rw [readHeader_bytes buf hblen]
    simp only [h4, hrev4, hfe, hver]
    rw [if_pos (show validUtf8 cmmm = true by decide),
      show u32add 24 8 = 32 from by decide, hloop]
    simp
  refine ⟨by rw [hread], by rw [hread]; simp, ?_⟩
  rw [hread]
  simp only [List.map_map]
  rfl

theorem claim_C1_witness :
    (((21 : Nat) = 21 ∨ (21 : Nat) = 30 ∨ (21 : Nat) = 31 ∨ (21 : Nat) = 32) ∧
      (List.replicate 16 0 : Bytes).length = 16 ∧ (∀ r ∈ [c1rec], r.WF)) ∧
    ((Thumbscache.read
      (mkFileHeader 21 0 8 (List.replicate 16 0) ++
        ([c1rec].map encodeRec).flatten)).outcome = .ok [c1rec].length ∧
    (Thumbscache.read
      (mkFileHeader 21 0 8 (List.replicate 16 0) ++
        ([c1rec].map encodeRec).flatten)).cache_entires.length = [c1rec].length ∧
    (Thumbscache.read
      (mkFileHeader 21 0 8 (List.replicate 16 0) ++
        ([c1rec].map encodeRec).flatten)).cache_entires.map CacheEntry.data =
      [c1rec].map ModernRec.db) :=
  ⟨⟨by decide, by decide, by decide⟩,
    claim_C1 21 0 (List.replicate 16 0) [c1rec] (by decide) (by decide) (by decide)⟩
